import Mathlib

/-!
Shallow embedding of the job-application assistant backend:
the `ConversationMemory` durable object (session-scoped conversation store),
the Hono HTTP handlers in `index.ts`, and the four-stage
`JobApplicationWorkflow` generation pipeline.

JavaScript objects that matter to the claims (the `jobContext` blob) are
modelled as association lists of JSON values; machine time (`Date.now()`)
is passed in explicitly as a natural number; the external AI, storage and
orchestrator services are oracles/parameters.
-/

namespace JobAssistant

/-- A JSON value, as far as the `jobContext` handling needs it:
strings and objects (association lists of fields, in insertion order). -/
inductive JVal where
| str : String → JVal
| obj : List (String × JVal) → JVal

/-- First-match lookup of a key in a JSON object's field list
(JavaScript property access on objects with unique keys). -/
def lookupJ (fields : List (String × JVal)) (k : String) : Option JVal :=
  match fields with
  | [] => none
  | (k', v) :: rest => if k' = k then some v else lookupJ rest k

/-- JavaScript object spread `\x7b...a, ...b\x7d`: the keys of `a` in order,
each overridden by `b`'s value when `b` also has the key, followed by the
keys of `b` that `a` lacks, in `b`'s order. -/
def jsSpread (a b : List (String × JVal)) : List (String × JVal) :=
  a.map (fun p => (p.1, (lookupJ b p.1).getD p.2)) ++
    b.filter (fun p => (lookupJ a p.1).isNone)

/-- Message roles (`"system" | "user" | "assistant"` in `types.ts` and
the durable object's `Message` interface). -/
inductive Role where
| system : Role
| user : Role
| assistant : Role
deriving DecidableEq

/-- The role type of `handleAddMessage`'s request body:
the source declares it as `"user" | "assistant"`. -/
inductive AppendRole where
| user : AppendRole
| assistant : AppendRole
deriving DecidableEq

/-- Widening of an append role to a stored role. -/
def AppendRole.toRole : AppendRole → Role
| .user => .user
| .assistant => .assistant

/-- A stored message: role, content, and the server-assigned
`Date.now()` timestamp (milliseconds since epoch, modelled as `Nat`). -/
structure Message where
  role : Role
  content : String
  timestamp : Nat
deriving DecidableEq

/-- Metadata `ConversationState.metadata` from `ConversationMemory`:
`jobContext` is the optional JSON object of job fields. -/
structure ConversationMetadata where
  userId : String
  sessionId : String
  createdAt : Nat
  lastActivityAt : Nat
  jobContext : Option (List (String × JVal))

/-- The single `"conversation"` blob a session's durable object stores. -/
structure ConversationState where
  messages : List Message
  metadata : ConversationMetadata

/-- The seeded system message's content (from `handleInit`). -/
def systemPrompt : String :=
  "You are a helpful AI job application assistant. Help users with resume tailoring, cover letter writing, interview preparation, and job search advice."

/-- The state `handleInit` creates when no conversation exists yet:
one seeded system message, `createdAt` and `lastActivityAt` stamped now. -/
def initialConversationState (now : Nat) (userId sessionId : String) :
    ConversationState :=
  { messages := [{ role := .system, content := systemPrompt, timestamp := now }]
    metadata :=
      { userId := userId
        sessionId := sessionId
        createdAt := now
        lastActivityAt := now
        jobContext := none } }

/-- Handler `handleInit`: if no state exists, seed it and return it; otherwise
return the existing state unchanged.  Result: (new stored blob, state
included in the response). -/
def handleInit (now : Nat) (userId sessionId : String)
    (store : Option ConversationState) :
    Option ConversationState × ConversationState :=
  match store with
  | none =>
      let s := initialConversationState now userId sessionId
      (some s, s)
  | some existing => (some existing, existing)

/-- Handler `handleAddMessage`: 400 (`none` response) if the session was never
initialized, otherwise append a message with a server-assigned timestamp,
bump `lastActivityAt`, persist, and return the appended message. -/
def handleAddMessage (now : Nat) (role : AppendRole) (content : String)
    (store : Option ConversationState) :
    Option ConversationState × Option Message :=
  match store with
  | none => (none, none)
  | some conv =>
      let newMessage : Message :=
        { role := role.toRole, content := content, timestamp := now }
      let conv' : ConversationState :=
        { messages := conv.messages ++ [newMessage]
          metadata := { conv.metadata with lastActivityAt := now } }
      (some conv', some newMessage)

/-- JavaScript `array.slice(-limit)` for a non-negative `limit`:
`slice(-0)` is `slice(0)` and keeps the whole array; for positive `limit`
it keeps the last `limit` elements (all of them when fewer exist). -/
def sliceLast (limit : Nat) (l : List α) : List α :=
  if limit = 0 then l else l.drop (l.length - limit)

/-- The `/history` response body: the selected messages, and the metadata
field, which the handler includes only when the conversation exists. -/
structure HistoryResponse where
  messages : List Message
  metadata : Option ConversationMetadata

/-- Handler `handleGetHistory`: an uninitialized session yields `\x7bmessages: []\x7d`
with no metadata field; otherwise the last `limit` messages plus the
metadata. -/
def handleGetHistory (limit : Nat) (store : Option ConversationState) :
    HistoryResponse :=
  match store with
  | none => { messages := [], metadata := none }
  | some conv =>
      { messages := sliceLast limit conv.messages
        metadata := some conv.metadata }

/-- Handler `handleUpdateContext` (durable-object level): 400 (`none` response)
if uninitialized; otherwise spread the given partial over the existing
`metadata.jobContext` (spreading over a missing context starts from
the empty object), persist, and return the merged context. -/
def handleUpdateContext (jc : List (String × JVal))
    (store : Option ConversationState) :
    Option ConversationState × Option (List (String × JVal)) :=
  match store with
  | none => (none, none)
  | some conv =>
      let merged := jsSpread (conv.metadata.jobContext.getD []) jc
      let conv' : ConversationState :=
        { messages := conv.messages
          metadata := { conv.metadata with jobContext := some merged } }
      (some conv', some merged)

/-- Handler `handleClear`: `storage.deleteAll()` drops the blob unconditionally. -/
def handleClear (_store : Option ConversationState) :
    Option ConversationState :=
  none

/-- The fields the durable object destructures from the `/context` request
body: `body.jobContext` when it is an object, else nothing to spread. -/
def objFields : Option JVal → List (String × JVal)
| some (.obj fs) => fs
| _ => []

/-- The durable object's `/context` route on a raw request body:
it destructures `jobContext` from the body and merges that. -/
def doContextRoute (reqBody : List (String × JVal))
    (store : Option ConversationState) :
    Option ConversationState × Option (List (String × JVal)) :=
  handleUpdateContext (objFields (lookupJ reqBody "jobContext")) store

/-- The worker's `POST /api/context/:sessionId` handler (`index.ts`):
it reads the WHOLE request body into a local named `jobContext` and
forwards `\x7b jobContext \x7d` to the durable object, so the durable
object ends up merging the entire client body as the partial. -/
def postContextEndpoint (body : List (String × JVal))
    (store : Option ConversationState) :
    Option ConversationState × Option (List (String × JVal)) :=
  doContextRoute [("jobContext", JVal.obj body)] store

/-- One store operation on a session, with the `Date.now()` value the
handler observes where it matters. -/
inductive Op where
| init (now : Nat) (userId sessionId : String)
| add (now : Nat) (role : AppendRole) (content : String)
| updCtx (jc : List (String × JVal))
| clear

/-- Effect of one operation on the stored blob. -/
def step (store : Option ConversationState) : Op → Option ConversationState
| .init now u s => (handleInit now u s store).1
| .add now r c => (handleAddMessage now r c store).1
| .updCtx jc => (handleUpdateContext jc store).1
| .clear => handleClear store

/-- Run a sequence of operations from a starting blob. -/
def run (ops : List Op) (store : Option ConversationState) :
    Option ConversationState :=
  ops.foldl step store

/-- The `Date.now()` an operation reads, when it reads one. -/
def opNow : Op → Option Nat
| .init n _ _ => some n
| .add n _ _ => some n
| .updCtx _ => none
| .clear => none

/-- The single-writer clock discipline: along the trace, each observed
`Date.now()` is at least the previous one. -/
def Chron (t : Nat) : List Op → Prop
| [] => True
| op :: rest => t ≤ (opNow op).getD t ∧ Chron ((opNow op).getD t) rest

/-- The clock value after a trace. -/
def clockAfter (t : Nat) : List Op → Nat
| [] => t
| op :: rest => clockAfter ((opNow op).getD t) rest

/-- Role shape of an initialized conversation: a system seed at the head
and only user/assistant messages after it. -/
def RolesOK : List Message → Prop
| [] => False
| first :: rest =>
    first.role = .system ∧ ∀ m ∈ rest, m.role = .user ∨ m.role = .assistant

/-- Timestamp shape: message timestamps are non-decreasing and bounded by
the clock, and so is `lastActivityAt`. -/
def TimesOK (t : Nat) (s : ConversationState) : Prop :=
  List.Chain' (fun (a b : Message) => a.timestamp ≤ b.timestamp) s.messages ∧
    (∀ m ∈ s.messages, m.timestamp ≤ t) ∧ s.metadata.lastActivityAt ≤ t

/-- Combined invariant on the optional stored blob. -/
def Inv (t : Nat) : Option ConversationState → Prop
| none => True
| some s => RolesOK s.messages ∧ TimesOK t s

end JobAssistant

namespace JobAssistant

/-! ### The workflow-start endpoint (`POST /api/workflow`) -/

/-- The parsed `POST /api/workflow` body; every field may be absent. -/
structure WorkflowReqBody where
  jobDescription : Option String
  resumeText : Option String
  jobTitle : Option String
  company : Option String
  userId : Option String

/-- JavaScript falsiness of an optional string field (`!x`):
absent fields and empty strings are falsy. -/
def jsFalsy : Option String → Bool
| none => true
| some s => s == ""

/-- Outcome of the orchestrator's `create` call. -/
inductive CreateOutcome where
| created (id : String)
| failed (msg : String)

/-- Responses of the `POST /api/workflow` handler. -/
inductive WfStartResult where
| badRequest (error : String)
| started (workflowId : String) (message : String) (status : String)
| serverError (error : String)
deriving DecidableEq

/-- The `POST /api/workflow` handler: 400 when `jobDescription`,
`resumeText` or `jobTitle` is falsy, before the orchestrator is touched;
otherwise create the run and answer with the assigned id. -/
def workflowStartHandler (body : WorkflowReqBody) (create : CreateOutcome) :
    WfStartResult :=
  if jsFalsy body.jobDescription || jsFalsy body.resumeText ||
      jsFalsy body.jobTitle then
    .badRequest "Missing required workflow fields"
  else
    match create with
    | .created id => .started id "Workflow started successfully" "running"
    | .failed _ => .serverError "Failed to start workflow"

/-! ### The workflow-status endpoint (`GET /api/workflow/:workflowId`) -/

/-- The fields the handler probes on the orchestrator's status object. -/
structure StatusInfo where
  status : Option String
  output : Option JVal
  result : Option JVal

/-- What `JOB_WORKFLOW.get(id)` + `instance.status()` yields: a not-found
fault, some other fault, or a status object (possibly null) together
with what `instance.output()` would produce (none when it throws or is
falsy). -/
inductive OrcGet where
| notFoundErr
| otherErr (msg : String)
| ok (si : Option StatusInfo) (instOut : Option JVal)

/-- A 200 body of the status endpoint. -/
structure WfStatusBody where
  workflowId : String
  status : String
  output : Option JVal

/-- Responses of the status endpoint: a 200 JSON body or a 500 error. -/
inductive WfStatusResult where
| success (body : WfStatusBody)
| serverError (message : String)

/-- JavaScript `statusInfo?.status || "running"`. -/
def statusOrRunning (s : Option String) : String :=
  match s with
  | some v => if v = "" then "running" else v
  | none => "running"

/-- The `GET /api/workflow/:workflowId` handler from `index.ts`:
pass the orchestrator's status through (defaulting to `"running"`),
force `"complete"` when an inline `output`/`result` is present, fetch
`instance.output()` when the status says complete/success, and map a
not-found fault to a 200 body with status `"not_found"`. -/
def workflowStatusHandler (wid : String) (orc : OrcGet) : WfStatusResult :=
  match orc with
  | .notFoundErr =>
      .success { workflowId := wid, status := "not_found", output := none }
  | .otherErr msg => .serverError msg
  | .ok si? instOut =>
      let finalStatus := statusOrRunning (si?.bind (·.status))
      match si? with
      | none =>
          .success { workflowId := wid, status := finalStatus, output := none }
      | some si =>
          if si.output.isSome then
            .success { workflowId := wid, status := "complete", output := si.output }
          else if si.result.isSome then
            .success { workflowId := wid, status := "complete", output := si.result }
          else if finalStatus = "complete" ∨ finalStatus = "success" then
            .success { workflowId := wid, status := finalStatus, output := instOut }
          else
            .success { workflowId := wid, status := finalStatus, output := none }

/-! ### The four-stage generation pipeline (`JobApplicationWorkflow.run`) -/

/-- Parameters `JobApplicationParams` from `JobApplicationWorkflow.ts`. -/
structure JobApplicationParams where
  jobDescription : String
  resumeText : String
  jobTitle : String
  company : String
  userId : String

/-- Result `JobApplicationResult`: the four aggregated artifacts. -/
structure JobApplicationResult where
  analysis : String
  tailoredResume : String
  coverLetter : String
  interviewTips : String

/-- One call to the text-generation service: prompt and `max_tokens`. -/
structure AiCall where
  prompt : String
  maxTokens : Nat

/-- The `analyze-job` step's prompt template. -/
def analyzeJobPrompt (jobTitle company jobDescription : String) : String :=
  "Analyze this job description for " ++ jobTitle ++ " at " ++ company ++
    ":\n\n" ++ jobDescription ++
    "\n\nProvide key requirements, skills needed, and culture fit indicators."

/-- The `tailor-resume` step's prompt template; embeds the analysis. -/
def tailorResumePrompt (resumeText analysis jobTitle company : String) :
    String :=
  "Given this resume:\n\n" ++ resumeText ++ "\n\nAnd this job analysis:\n" ++
    analysis ++
    ("\n\nCreate a tailored version of the resume that emphasizes relevant skills and experience for the " ++
      jobTitle ++ " position at " ++ company ++
      ". Maintain professional formatting.")

/-- The `generate-cover-letter` step's prompt template; embeds the
analysis. -/
def coverLetterPrompt (analysis resumeText jobTitle company : String) :
    String :=
  "Write a compelling cover letter for the " ++ jobTitle ++
    " position at " ++ company ++ ".\n\nJob Requirements:\n" ++ analysis ++
    ("\n\nCandidate Background:\n" ++ resumeText ++
      "\n\nCreate a professional, personalized cover letter that highlights relevant experience and expresses genuine interest in the role.")

/-- The `interview-tips` step's prompt template: built from
`jobDescription`, `jobTitle` and `company` only. -/
def interviewTipsPrompt (jobDescription jobTitle company : String) : String :=
  "Based on this job for " ++ jobTitle ++ " at " ++ company ++ ":\n\n" ++
    jobDescription ++
    "\n\nProvide 5-7 targeted interview preparation tips, including likely questions and strong answer frameworks."

/-- Pipeline `JobApplicationWorkflow.run` against an inference oracle
`ai : prompt → max_tokens → response`: the four steps in program order,
each later prompt built from earlier results exactly as in the source.
Returns the aggregated result and the trace of AI calls in the order
they are issued. -/
def jobWorkflowRun (p : JobApplicationParams) (ai : String → Nat → String) :
    JobApplicationResult × List AiCall :=
  let c1 : AiCall :=
    { prompt := analyzeJobPrompt p.jobTitle p.company p.jobDescription
      maxTokens := 1024 }
  let analysis := ai c1.prompt c1.maxTokens
  let c2 : AiCall :=
    { prompt := tailorResumePrompt p.resumeText analysis p.jobTitle p.company
      maxTokens := 2048 }
  let tailoredResume := ai c2.prompt c2.maxTokens
  let c3 : AiCall :=
    { prompt := coverLetterPrompt analysis p.resumeText p.jobTitle p.company
      maxTokens := 2048 }
  let coverLetter := ai c3.prompt c3.maxTokens
  let c4 : AiCall :=
    { prompt := interviewTipsPrompt p.jobDescription p.jobTitle p.company
      maxTokens := 1536 }
  let interviewTips := ai c4.prompt c4.maxTokens
  ({ analysis := analysis
     tailoredResume := tailoredResume
     coverLetter := coverLetter
     interviewTips := interviewTips },
   [c1, c2, c3, c4])

/-! ### The chat endpoint (`POST /api/chat`) -/

/-- The `POST /api/chat` handler body, after field validation: it
initializes the session if needed, appends the user message, fetches
history with the hardcoded `limit=10`, maps it to role/content pairs for
the model, and appends the model's reply.  Returns the new stored blob,
the context actually forwarded to the model, and the reply. -/
def chatHandler (n1 n2 n3 : Nat) (message sessionId userId : String)
    (ai : List (Role × String) → String)
    (store : Option ConversationState) :
    Option ConversationState × List (Role × String) × String :=
  let st1 := (handleInit n1 userId sessionId store).1
  let st2 := (handleAddMessage n2 .user message st1).1
  let hist := handleGetHistory 10 st2
  let ctx := hist.messages.map (fun m => (m.role, m.content))
  let assistantMessage := ai ctx
  let st3 := (handleAddMessage n3 .assistant assistantMessage st2).1
  (st3, ctx, assistantMessage)

/-- Role-shape invariant on the optional stored blob: clocks play no part. -/
def RolesInv : Option ConversationState → Prop
| none => True
| some s => RolesOK s.messages

/-! ### Concrete scenario inputs used by witnesses and counterexamples -/

/-- An initialized session whose `jobContext` is `\x7bjobTitle: "A"\x7d`. -/
def c1Store : Option ConversationState :=
  some
    { messages := [{ role := .system, content := systemPrompt, timestamp := 0 }]
      metadata :=
        { userId := "u1", sessionId := "s1", createdAt := 0,
          lastActivityAt := 0,
          jobContext := some [("jobTitle", JVal.str "A")] } }

/-- Init followed by one user and one assistant append. -/
def c2Trace : List Op :=
  [.init 0 "u" "s", .add 1 .user "hi", .add 2 .assistant "hello"]

/-- The conversation `c2Trace` produces. -/
def c2Final : ConversationState :=
  { messages :=
      [{ role := .system, content := systemPrompt, timestamp := 0 },
       { role := .user, content := "hi", timestamp := 1 },
       { role := .assistant, content := "hello", timestamp := 2 }]
    metadata :=
      { userId := "u", sessionId := "s", createdAt := 0, lastActivityAt := 2,
        jobContext := none } }

/-- Init followed by two appends: a three-message conversation. -/
def c3Trace : List Op :=
  [.init 0 "u" "s", .add 1 .user "one", .add 2 .assistant "two"]

/-- The conversation `c3Trace` produces. -/
def c3Final : ConversationState :=
  { messages :=
      [{ role := .system, content := systemPrompt, timestamp := 0 },
       { role := .user, content := "one", timestamp := 1 },
       { role := .assistant, content := "two", timestamp := 2 }]
    metadata :=
      { userId := "u", sessionId := "s", createdAt := 0, lastActivityAt := 2,
        jobContext := none } }

/-- A workflow request whose `jobDescription` is present but empty. -/
def c6EmptyBody : WorkflowReqBody :=
  { jobDescription := some "", resumeText := some "my resume",
    jobTitle := some "Engineer", company := some "Acme",
    userId := some "u1" }

/-- A workflow request with the three required fields non-empty and
`company`/`userId` absent. -/
def c6GoodBody : WorkflowReqBody :=
  { jobDescription := some "desc", resumeText := some "my resume",
    jobTitle := some "Engineer", company := none, userId := none }

/-- Concrete pipeline parameters. -/
def c7Params : JobApplicationParams :=
  { jobDescription := "desc", resumeText := "resume",
    jobTitle := "Engineer", company := "Acme", userId := "u1" }

/-- A concrete inference oracle. -/
def c7Oracle : String → Nat → String := fun _ _ => "generated"

/-- Init followed by nine appends: a ten-message conversation, so the
next chat request works on more than ten messages. -/
def c10Trace : List Op :=
  [.init 0 "u" "s",
   .add 1 .user "m1", .add 2 .assistant "m2", .add 3 .user "m3",
   .add 4 .assistant "m4", .add 5 .user "m5", .add 6 .assistant "m6",
   .add 7 .user "m7", .add 8 .assistant "m8", .add 9 .user "m9"]

/-- The conversation `c10Trace` produces. -/
def c10Final : ConversationState :=
  { messages :=
      [{ role := .system, content := systemPrompt, timestamp := 0 },
       { role := .user, content := "m1", timestamp := 1 },
       { role := .assistant, content := "m2", timestamp := 2 },
       { role := .user, content := "m3", timestamp := 3 },
       { role := .assistant, content := "m4", timestamp := 4 },
       { role := .user, content := "m5", timestamp := 5 },
       { role := .assistant, content := "m6", timestamp := 6 },
       { role := .user, content := "m7", timestamp := 7 },
       { role := .assistant, content := "m8", timestamp := 8 },
       { role := .user, content := "m9", timestamp := 9 }]
    metadata :=
      { userId := "u", sessionId := "s", createdAt := 0, lastActivityAt := 9,
        jobContext := none } }

/-- A concrete chat oracle. -/
def c10Ai : List (Role × String) → String := fun _ => "reply"

end JobAssistant

namespace JobAssistant

/-! ### Helper lemmas -/

theorem lookupJ_append (xs ys : List (String × JVal)) (k : String) :
    lookupJ (xs ++ ys) k =
      match lookupJ xs k with
      | some v => some v
      | none => lookupJ ys k := by
  induction xs with
  | nil => simp [lookupJ]
  | cons p xs ih =>
    obtain ⟨k', v⟩ := p
    by_cases h : k' = k <;> simp [lookupJ, h, ih]

theorem lookupJ_map_override (b : List (String × JVal)) :
    ∀ (a : List (String × JVal)) (k : String),
    lookupJ (a.map (fun p => (p.1, (lookupJ b p.1).getD p.2))) k =
      (lookupJ a k).map (fun v => (lookupJ b k).getD v) := by
  intro a
  induction a with
  | nil => intro k; simp [lookupJ]
  | cons p a ih =>
    intro k
    obtain ⟨k', v⟩ := p
    by_cases h : k' = k <;> simp [lookupJ, h, ih]

theorem lookupJ_filter_key (c : String → Bool) (b : List (String × JVal))
    (k : String) :
    lookupJ (b.filter (fun p => c p.1)) k =
      if c k then lookupJ b k else none := by
  induction b with
  | nil => simp [lookupJ]
  | cons p b ih =>
    obtain ⟨k', v⟩ := p
    by_cases h : k' = k
    · subst h
      cases hc : c k' <;> simp [List.filter_cons, lookupJ, hc, ih]
    · cases hc : c k' <;> simp [List.filter_cons, lookupJ, hc, ih, h]

/-- The field-wise merge law of `jsSpread`: a key present in the update
takes the update's value, a key absent keeps the prior value. -/
theorem lookupJ_jsSpread (a b : List (String × JVal)) (k : String) :
    lookupJ (jsSpread a b) k =
      match lookupJ b k with
      | some v => some v
      | none => lookupJ a k := by
  unfold jsSpread
  rw [lookupJ_append, lookupJ_map_override,
    lookupJ_filter_key (fun s => (lookupJ a s).isNone)]
  cases ha : lookupJ a k <;> cases hb : lookupJ b k <;> simp [ha, hb]

theorem timesOK_mono {t t' : Nat} {s : ConversationState}
    (h : TimesOK t s) (htt : t ≤ t') : TimesOK t' s :=
  ⟨h.1, fun m hm => le_trans (h.2.1 m hm) htt, le_trans (h.2.2) htt⟩

theorem rolesInv_step (op : Op) (st : Option ConversationState)
    (h : RolesInv st) : RolesInv (step st op) := by
  cases op with
  | init n u sid =>
    cases st with
    | none =>
      show RolesOK (initialConversationState n u sid).messages
      simp [RolesOK, initialConversationState]
    | some s => exact h
  | add n r c =>
    cases st with
    | none => exact trivial
    | some s =>
      have h' : RolesOK s.messages := h
      cases hm : s.messages with
      | nil => rw [hm] at h'; exact absurd h' (by simp [RolesOK])
      | cons m₀ rest =>
        rw [hm] at h'
        obtain ⟨hfirst, hrest⟩ := h'
        show RolesOK (s.messages ++
          [{ role := r.toRole, content := c, timestamp := n }])
        rw [hm, List.cons_append]
        refine ⟨hfirst, fun m hmem => ?_⟩
        rcases List.mem_append.mp hmem with hl | hr
        · exact hrest m hl
        · have hv : m = { role := r.toRole, content := c, timestamp := n } := by
            simpa using hr
          subst hv
          cases r <;> simp [AppendRole.toRole]
  | updCtx jc =>
    cases st with
    | none => exact trivial
    | some s => exact h
  | clear => exact trivial

theorem rolesInv_run (ops : List Op) :
    ∀ (st : Option ConversationState), RolesInv st → RolesInv (run ops st) := by
  induction ops with
  | nil => intro st h; exact h
  | cons op rest ih =>
    intro st h
    exact ih (step st op) (rolesInv_step op st h)

theorem inv_step (t : Nat) (op : Op) (st : Option ConversationState)
    (hinv : Inv t st) (hle : t ≤ (opNow op).getD t) :
    Inv ((opNow op).getD t) (step st op) := by
  cases op with
  | init n u sid =>
    have hle' : t ≤ n := hle
    cases st with
    | none =>
      show RolesOK (initialConversationState n u sid).messages ∧
        TimesOK n (initialConversationState n u sid)
      refine ⟨by simp [RolesOK, initialConversationState],
        by simp [TimesOK, initialConversationState], ?_, ?_⟩
      · intro m hm
        simp only [initialConversationState, List.mem_singleton] at hm
        subst hm; exact le_rfl
      · exact le_rfl
    | some s =>
      have hinv' : RolesOK s.messages ∧ TimesOK t s := hinv
      exact show RolesOK s.messages ∧ TimesOK n s from
        ⟨hinv'.1, timesOK_mono hinv'.2 hle'⟩
  | add n r c =>
    have hle' : t ≤ n := hle
    cases st with
    | none => exact trivial
    | some s =>
      have hinv' : RolesOK s.messages ∧ TimesOK t s := hinv
      obtain ⟨hroles, hchain, hbound, hact⟩ :
          RolesOK s.messages ∧
            List.Chain' (fun (a b : Message) => a.timestamp ≤ b.timestamp) s.messages ∧
            (∀ m ∈ s.messages, m.timestamp ≤ t) ∧
            s.metadata.lastActivityAt ≤ t := hinv'
      show RolesOK (s.messages ++
          [{ role := r.toRole, content := c, timestamp := n }]) ∧
        List.Chain' (fun (a b : Message) => a.timestamp ≤ b.timestamp)
          (s.messages ++ [{ role := r.toRole, content := c, timestamp := n }]) ∧
        (∀ m ∈ s.messages ++ [{ role := r.toRole, content := c, timestamp := n }],
          m.timestamp ≤ n) ∧
        n ≤ n
      refine ⟨?_, ?_, ?_, le_rfl⟩
      · exact rolesInv_step (.add n r c) (some s) hroles
      · rw [List.chain'_append]
        refine ⟨hchain, by simp, fun x hx y hy => ?_⟩
        obtain ⟨hne, hxl⟩ := List.mem_getLast?_eq_getLast hx
        have hxmem : x ∈ s.messages := hxl ▸ List.getLast_mem hne
        have hyv : ({ role := r.toRole, content := c, timestamp := n } : Message)
            = y := by simpa using hy
        subst hyv
        exact le_trans (hbound x hxmem) hle'
      · intro m hm
        rcases List.mem_append.mp hm with hl | hr
        · exact le_trans (hbound m hl) hle'
        · have hv : m = { role := r.toRole, content := c, timestamp := n } := by
            simpa using hr
          subst hv; exact le_rfl
  | updCtx jc =>
    cases st with
    | none => exact trivial
    | some s => exact hinv
  | clear => exact trivial

theorem inv_run (ops : List Op) :
    ∀ (t : Nat) (st : Option ConversationState),
      Inv t st → Chron t ops → Inv (clockAfter t ops) (run ops st) := by
  induction ops with
  | nil => intro t st h _; exact h
  | cons op rest ih =>
    intro t st h hc
    obtain ⟨hle, hrest⟩ := hc
    exact ih ((opNow op).getD t) (step st op) (inv_step t op st h hle) hrest

end JobAssistant

namespace JobAssistant

/-! ### Claim theorems -/

/-- C1: `handleUpdateContext` itself shallow-merges a partial into
`metadata.jobContext` exactly as specified, but the HTTP endpoint
`POST /api/context/:sessionId` passes the WHOLE request body on as the
partial, so the documented body shape `\x7bjobContext: \x7bcompany: "B"\x7d\x7d`
on an existing context `\x7bjobTitle: "A"\x7d` stores a literal
`jobContext` field and no `company` field, instead of the documented
`\x7bjobTitle: "A", company: "B"\x7d`.  The last conjunct shows the
durable-object-level merge behaves as the claim intends. -/
theorem context_endpoint_double_wraps_body :
    (postContextEndpoint [("jobContext", JVal.obj [("company", JVal.str "B")])]
        c1Store).2
      = some [("jobTitle", JVal.str "A"),
              ("jobContext", JVal.obj [("company", JVal.str "B")])] ∧
    lookupJ [("jobTitle", JVal.str "A"),
             ("jobContext", JVal.obj [("company", JVal.str "B")])] "company"
      = none ∧
    (handleUpdateContext [("company", JVal.str "B")] c1Store).2
      = some [("jobTitle", JVal.str "A"), ("company", JVal.str "B")] :=
  ⟨rfl, rfl, rfl⟩

/-- C2: in every state reachable through the store's operations, an
initialized conversation is non-empty, has the system seed at position 0,
every later message (all of them added by `appendMessage`, whose role
parameter is typed `"user" | "assistant"`) is user or assistant, and the
conversation holds exactly one system-role message. -/
theorem append_never_adds_system_seed (ops : List Op) (s : ConversationState)
    (hrun : run ops none = some s) :
    s.messages ≠ [] ∧
    (∃ m₀ rest, s.messages = m₀ :: rest ∧ m₀.role = Role.system ∧
      ∀ m ∈ rest, m.role = Role.user ∨ m.role = Role.assistant) ∧
    (s.messages.filter (fun m => m.role == Role.system)).length = 1 := by
  have hinv : RolesInv (run ops none) := rolesInv_run ops none trivial
  rw [hrun] at hinv
  have h' : RolesOK s.messages := hinv
  cases hm : s.messages with
  | nil => rw [hm] at h'; exact absurd h' (by simp [RolesOK])
  | cons m₀ rest =>
    rw [hm] at h'
    obtain ⟨h1, h2⟩ := h'
    refine ⟨by simp, ⟨m₀, rest, rfl, h1, h2⟩, ?_⟩
    have hnil : rest.filter (fun m => m.role == Role.system) = [] := by
      rw [List.filter_eq_nil_iff]
      intro m hmem
      rcases h2 m hmem with hu | hu <;> simp [hu]
    have hsys : (m₀.role == Role.system) = true := by simp [h1]
    rw [List.filter_cons, if_pos (by simp [hsys]), hnil]
    rfl

/-- Witness for C2 at the concrete trace `c2Trace`. -/
theorem append_never_adds_system_seed_witness :
    c2Final.messages ≠ [] ∧
    (∃ m₀ rest, c2Final.messages = m₀ :: rest ∧ m₀.role = Role.system ∧
      ∀ m ∈ rest, m.role = Role.user ∨ m.role = Role.assistant) ∧
    (c2Final.messages.filter (fun m => m.role == Role.system)).length = 1 :=
  append_never_adds_system_seed c2Trace c2Final rfl

/-- C3 counterexample: the claim says `getHistory(limit=0)` returns zero
messages, but `messages.slice(-0)` is `messages.slice(0)`, so on a
three-message conversation the handler returns all three messages. -/
theorem getHistory_limit_zero_counterexample :
    (handleGetHistory 0 (run c3Trace none)).messages.length = 3 :=
  rfl

/-- C3 (amended): for a positive limit N, `getHistory` returns exactly
the last N messages (all of them when fewer exist) in insertion order
with the metadata, and — under the single-writer clock discipline —
timestamps along the returned list are non-decreasing; `limit = 0`
however returns ALL messages, not zero. -/
theorem getHistory_returns_recent_suffix (ops : List Op)
    (s : ConversationState) (N : Nat)
    (hchron : Chron 0 ops) (hrun : run ops none = some s) :
    (1 ≤ N → (handleGetHistory N (some s)).messages
        = s.messages.drop (s.messages.length - N)) ∧
    (handleGetHistory 0 (some s)).messages = s.messages ∧
    (handleGetHistory N (some s)).metadata = some s.metadata ∧
    List.Chain' (fun (a b : Message) => a.timestamp ≤ b.timestamp)
      (handleGetHistory N (some s)).messages := by
  have hinv : Inv (clockAfter 0 ops) (run ops none) :=
    inv_run ops 0 none trivial hchron
  rw [hrun] at hinv
  have hinv' : RolesOK s.messages ∧ TimesOK (clockAfter 0 ops) s := hinv
  have htimes :
      List.Chain' (fun (a b : Message) => a.timestamp ≤ b.timestamp)
          s.messages ∧
        (∀ m ∈ s.messages, m.timestamp ≤ clockAfter 0 ops) ∧
        s.metadata.lastActivityAt ≤ clockAfter 0 ops := hinv'.2
  refine ⟨?_, ?_, ?_, ?_⟩
  · intro hN
    have hN0 : N ≠ 0 := by omega
    simp [handleGetHistory, sliceLast, hN0]
  · simp [handleGetHistory, sliceLast]
  · simp [handleGetHistory]
  · by_cases hN0 : N = 0
    · simpa [handleGetHistory, sliceLast, hN0] using htimes.1
    · simp only [handleGetHistory, sliceLast, hN0, if_false]
      exact List.Chain'.drop htimes.1 _

/-- Witness for C3 (amended) at the concrete trace `c3Trace`, N = 2. -/
theorem getHistory_returns_recent_suffix_witness :
    (1 ≤ 2 → (handleGetHistory 2 (some c3Final)).messages
        = c3Final.messages.drop (c3Final.messages.length - 2)) ∧
    (handleGetHistory 0 (some c3Final)).messages = c3Final.messages ∧
    (handleGetHistory 2 (some c3Final)).metadata = some c3Final.metadata ∧
    List.Chain' (fun (a b : Message) => a.timestamp ≤ b.timestamp)
      (handleGetHistory 2 (some c3Final)).messages :=
  getHistory_returns_recent_suffix c3Trace c3Final 2
    (by simp [Chron, opNow, c3Trace]) rfl

/-- C4: `initialize` is idempotent.  A first call on an uninitialized
session seeds exactly one system message; a second call leaves the stored
state unchanged, returns the pre-existing state, and the conversation
still holds exactly one (system) message. -/
theorem init_idempotent (n₁ n₂ : Nat) (u sid : String) :
    (handleInit n₂ u sid (handleInit n₁ u sid none).1).1
        = (handleInit n₁ u sid none).1 ∧
    (handleInit n₂ u sid (handleInit n₁ u sid none).1).2
        = (handleInit n₁ u sid none).2 ∧
    (handleInit n₁ u sid none).1 = some (initialConversationState n₁ u sid) ∧
    ((handleInit n₂ u sid (handleInit n₁ u sid none).1).2).messages.length
        = 1 ∧
    (((handleInit n₂ u sid (handleInit n₁ u sid none).1).2).messages.filter
        (fun m => m.role == Role.system)).length = 1 :=
  ⟨rfl, rfl, rfl, rfl, rfl⟩

/-- C8: `clear` drops all state unconditionally; `clear` then `getHistory`
yields the empty list; `clear` then `initialize` reseeds exactly one
system message and stamps `createdAt` with the fresh time. -/
theorem clear_resets_session (st : Option ConversationState)
    (lim n : Nat) (u sid : String) :
    handleClear st = none ∧
    handleGetHistory lim (handleClear st)
        = { messages := [], metadata := none } ∧
    (handleInit n u sid (handleClear st)).1
        = some (initialConversationState n u sid) ∧
    (initialConversationState n u sid).messages
        = [{ role := .system, content := systemPrompt, timestamp := n }] ∧
    (initialConversationState n u sid).metadata.createdAt = n :=
  ⟨rfl, rfl, rfl, rfl, rfl⟩

/-- C9 counterexample: on a never-initialized session the handler
returns `\x7bmessages: []\x7d` with NO metadata field, whereas the claim
says the empty list comes with the full metadata. -/
theorem uninit_history_has_no_metadata_counterexample :
    (handleGetHistory 50 none).messages = [] ∧
    (handleGetHistory 50 none).metadata = none :=
  ⟨rfl, rfl⟩

/-- C9 (amended): for every limit, a never-initialized session's
`getHistory` returns the empty message list and no metadata — never an
error. -/
theorem uninit_history_empty (limit : Nat) :
    handleGetHistory limit none = { messages := [], metadata := none } :=
  rfl

end JobAssistant

namespace JobAssistant

theorem jsFalsy_eq_true_iff (o : Option String) :
    jsFalsy o = true ↔ o = none ∨ o = some "" := by
  cases o with
  | none => simp [jsFalsy]
  | some s => simp [jsFalsy, beq_iff_eq]

/-- C6 counterexample: a body whose `jobDescription` is present but the
empty string is rejected with 400, although none of the three required
fields is missing — refuting the claim's "if and only if ... missing". -/
theorem workflow_empty_field_counterexample :
    workflowStartHandler c6EmptyBody (.created "wf-1")
        = .badRequest "Missing required workflow fields" ∧
    c6EmptyBody.jobDescription.isSome = true ∧
    c6EmptyBody.resumeText.isSome = true ∧
    c6EmptyBody.jobTitle.isSome = true :=
  ⟨rfl, rfl, rfl, rfl⟩

/-- C6 (amended): the handler answers 400 exactly when `jobDescription`,
`resumeText` or `jobTitle` is missing OR empty (JavaScript falsiness);
the 400 happens before and independently of the orchestrator's create
call; and on a passing body with a successful create the response is
`\x7bworkflowId, message, status: "running"\x7d` with the assigned id.
Absence of `company` or `userId` alone never causes a 400. -/
theorem workflow_validation_iff (body : WorkflowReqBody)
    (create : CreateOutcome) :
    ((∃ e, workflowStartHandler body create = .badRequest e) ↔
      (body.jobDescription = none ∨ body.jobDescription = some "" ∨
       body.resumeText = none ∨ body.resumeText = some "" ∨
       body.jobTitle = none ∨ body.jobTitle = some "")) ∧
    ((body.jobDescription = none ∨ body.jobDescription = some "" ∨
       body.resumeText = none ∨ body.resumeText = some "" ∨
       body.jobTitle = none ∨ body.jobTitle = some "") →
      ∀ c2, workflowStartHandler body c2
          = .badRequest "Missing required workflow fields") ∧
    (¬(body.jobDescription = none ∨ body.jobDescription = some "" ∨
       body.resumeText = none ∨ body.resumeText = some "" ∨
       body.jobTitle = none ∨ body.jobTitle = some "") →
      ∀ id, workflowStartHandler body (.created id)
          = .started id "Workflow started successfully" "running") := by
  have hc : (jsFalsy body.jobDescription || jsFalsy body.resumeText ||
      jsFalsy body.jobTitle) = true ↔
      (body.jobDescription = none ∨ body.jobDescription = some "" ∨
       body.resumeText = none ∨ body.resumeText = some "" ∨
       body.jobTitle = none ∨ body.jobTitle = some "") := by
    simp [Bool.or_eq_true, jsFalsy_eq_true_iff, or_assoc]
  by_cases hD : (body.jobDescription = none ∨ body.jobDescription = some "" ∨
      body.resumeText = none ∨ body.resumeText = some "" ∨
      body.jobTitle = none ∨ body.jobTitle = some "")
  · have hcond := hc.mpr hD
    refine ⟨⟨fun _ => hD,
        fun _ => ⟨"Missing required workflow fields", ?_⟩⟩,
      fun _ c2 => ?_, fun hnD => absurd hD hnD⟩
    · simp [workflowStartHandler, hcond]
    · simp [workflowStartHandler, hcond]
  · have hcond : (jsFalsy body.jobDescription || jsFalsy body.resumeText ||
        jsFalsy body.jobTitle) = false := by
      rcases hb : (jsFalsy body.jobDescription || jsFalsy body.resumeText ||
          jsFalsy body.jobTitle) with _ | _
      · rfl
      · exact absurd (hc.mp hb) hD
    refine ⟨⟨?_, fun h => absurd h hD⟩, fun h => absurd h hD,
      fun _ id => ?_⟩
    · rintro ⟨e, he⟩
      exfalso
      cases create <;> simp [workflowStartHandler, hcond] at he
    · simp [workflowStartHandler, hcond]

/-- Witness for C6 (amended): a body with the three required fields
non-empty and `company`/`userId` absent starts the run. -/
theorem workflow_validation_iff_witness :
    workflowStartHandler c6GoodBody (.created "wf-1")
        = .started "wf-1" "Workflow started successfully" "running" :=
  (workflow_validation_iff c6GoodBody (.created "wf-1")).2.2 (by decide) "wf-1"

/-- C5: when the orchestrator call either succeeds reporting a status
from its documented set \x7bqueued, running, complete, errored,
terminated\x7d (or no status object) or fails with not-found, the
status endpoint answers 200 with `\x7bworkflowId, status, output\x7d`,
the status drawn from the documented set plus `not_found`, `output`
null unless the status is `complete`, and an unknown run id reported as
status `not_found` rather than an HTTP error. -/
theorem workflow_status_contract (wid : String) (orc : OrcGet)
    (hstatus : ∀ si io s, orc = OrcGet.ok (some si) io → si.status = some s →
      s = "queued" ∨ s = "running" ∨ s = "complete" ∨ s = "errored" ∨
        s = "terminated")
    (hfault : ∀ m, orc ≠ OrcGet.otherErr m) :
    ∃ body, workflowStatusHandler wid orc = .success body ∧
      body.workflowId = wid ∧
      (body.status = "queued" ∨ body.status = "running" ∨
        body.status = "complete" ∨ body.status = "errored" ∨
        body.status = "terminated" ∨ body.status = "not_found") ∧
      (body.status ≠ "complete" → body.output = none) ∧
      (orc = OrcGet.notFoundErr → body.status = "not_found") := by
  cases orc with
  | notFoundErr =>
    exact ⟨{ workflowId := wid, status := "not_found", output := none },
      rfl, rfl, by simp, fun _ => rfl, fun _ => rfl⟩
  | otherErr m => exact absurd rfl (hfault m)
  | ok si? io =>
    cases si? with
    | none =>
      exact ⟨{ workflowId := wid, status := "running", output := none },
        rfl, rfl, by simp, fun _ => rfl, fun h => nomatch h⟩
    | some si =>
      cases hout : si.output with
      | some v =>
        refine ⟨{ workflowId := wid, status := "complete", output := some v },
          ?_, rfl, by simp, fun h => absurd rfl h, fun h => nomatch h⟩
        simp [workflowStatusHandler, hout]
      | none =>
        cases hres : si.result with
        | some v =>
          refine ⟨{ workflowId := wid, status := "complete", output := some v },
            ?_, rfl, by simp, fun h => absurd rfl h, fun h => nomatch h⟩
          simp [workflowStatusHandler, hout, hres]
        | none =>
          by_cases hcs : statusOrRunning si.status = "complete" ∨
              statusOrRunning si.status = "success"
          · have hfsc : statusOrRunning si.status = "complete" := by
              rcases hcs with h | h
              · exact h
              · exfalso
                cases hst : si.status with
                | none => rw [hst] at h; simp [statusOrRunning] at h
                | some s =>
                  rw [hst] at h
                  by_cases hse : s = ""
                  · simp [statusOrRunning, hse] at h
                  · have hs : s = "success" := by
                      simpa [statusOrRunning, hse] using h
                    subst hs
                    rcases hstatus si io "success" rfl hst with
                      h5 | h5 | h5 | h5 | h5 <;> simp at h5
            refine ⟨WfStatusBody.mk wid (statusOrRunning si.status) io,
              ?_, rfl, ?_, ?_, fun h => nomatch h⟩
            · simp [workflowStatusHandler, hout, hres, hcs]
            · rw [hfsc]; simp
            · intro hne; exact absurd hfsc hne
          · refine ⟨WfStatusBody.mk wid (statusOrRunning si.status) none,
              ?_, rfl, ?_, fun _ => rfl, fun h => nomatch h⟩
            · simp [workflowStatusHandler, hout, hres, hcs]
            · cases hst : si.status with
              | none => simp [statusOrRunning]
              | some s =>
                by_cases hse : s = ""
                · simp [statusOrRunning, hse]
                · rcases hstatus si io s rfl hst with h5 | h5 | h5 | h5 | h5 <;>
                    simp [statusOrRunning, hse, h5]

/-- Witness for C5: polling an id the orchestrator has no record of. -/
theorem workflow_status_contract_witness :
    ∃ body, workflowStatusHandler "wf-404" OrcGet.notFoundErr
        = .success body ∧
      body.workflowId = "wf-404" ∧
      (body.status = "queued" ∨ body.status = "running" ∨
        body.status = "complete" ∨ body.status = "errored" ∨
        body.status = "terminated" ∨ body.status = "not_found") ∧
      (body.status ≠ "complete" → body.output = none) ∧
      (OrcGet.notFoundErr = OrcGet.notFoundErr → body.status = "not_found") :=
  workflow_status_contract "wf-404" OrcGet.notFoundErr
    (fun _ _ _ h => nomatch h) (fun _ h => nomatch h)

/-- C7: the pipeline issues exactly four generation calls in program
order with maximum output lengths 1024, 2048, 2048, 1536; the second and
third prompts textually embed the first call's response (so stage 2
cannot start before stage 1's result exists); and the fourth prompt is
built only from `jobDescription`, `jobTitle` and `company`, independent
of the oracle and of the other stages. -/
theorem pipeline_stage_contract (p : JobApplicationParams)
    (ai : String → Nat → String) :
    (jobWorkflowRun p ai).2 =
      [{ prompt := analyzeJobPrompt p.jobTitle p.company p.jobDescription,
         maxTokens := 1024 },
       { prompt := tailorResumePrompt p.resumeText
           (ai (analyzeJobPrompt p.jobTitle p.company p.jobDescription) 1024)
           p.jobTitle p.company,
         maxTokens := 2048 },
       { prompt := coverLetterPrompt
           (ai (analyzeJobPrompt p.jobTitle p.company p.jobDescription) 1024)
           p.resumeText p.jobTitle p.company,
         maxTokens := 2048 },
       { prompt := interviewTipsPrompt p.jobDescription p.jobTitle p.company,
         maxTokens := 1536 }] ∧
    (jobWorkflowRun p ai).2.map (fun c => c.maxTokens)
        = [1024, 2048, 2048, 1536] ∧
    (∀ r a t c, ∃ pre post, tailorResumePrompt r a t c = pre ++ a ++ post) ∧
    (∀ a r t c, ∃ pre post, coverLetterPrompt a r t c = pre ++ a ++ post) ∧
    (∀ (q : JobApplicationParams) (ai2 : String → Nat → String),
      q.jobDescription = p.jobDescription → q.jobTitle = p.jobTitle →
        q.company = p.company →
        (jobWorkflowRun q ai2).2.getLast?
          = (jobWorkflowRun p ai).2.getLast?) := by
  refine ⟨rfl, rfl, ?_, ?_, ?_⟩
  · intro r a t c
    exact ⟨"Given this resume:\n\n" ++ r ++ "\n\nAnd this job analysis:\n",
      "\n\nCreate a tailored version of the resume that emphasizes relevant skills and experience for the " ++
        t ++ " position at " ++ c ++ ". Maintain professional formatting.",
      rfl⟩
  · intro a r t c
    exact ⟨"Write a compelling cover letter for the " ++ t ++
        " position at " ++ c ++ ".\n\nJob Requirements:\n",
      "\n\nCandidate Background:\n" ++ r ++
        "\n\nCreate a professional, personalized cover letter that highlights relevant experience and expresses genuine interest in the role.",
      rfl⟩
  · intro q ai2 h1 h2 h3
    have hq : (jobWorkflowRun q ai2).2.getLast?
        = some { prompt := (interviewTipsPrompt
            q.jobDescription q.jobTitle q.company), maxTokens := 1536 } := rfl
    have hp : (jobWorkflowRun p ai).2.getLast?
        = some { prompt := (interviewTipsPrompt
            p.jobDescription p.jobTitle p.company), maxTokens := 1536 } := rfl
    rw [hq, hp, h1, h2, h3]

/-- Witness for C7 at concrete parameters and oracle. -/
theorem pipeline_stage_contract_witness :
    (jobWorkflowRun c7Params c7Oracle).2.map (fun c => c.maxTokens)
        = [1024, 2048, 2048, 1536] ∧
    (jobWorkflowRun c7Params c7Oracle).2.getLast?
        = (jobWorkflowRun c7Params c7Oracle).2.getLast? :=
  ⟨(pipeline_stage_contract c7Params c7Oracle).2.1,
   (pipeline_stage_contract c7Params c7Oracle).2.2.2.2 c7Params c7Oracle
     rfl rfl rfl⟩

/-- C10: the chat handler forwards to the model exactly the last ten
messages of the conversation after the user's message is appended
(the history fetch is hardcoded to `limit=10`), so once the conversation
exceeds ten messages the forwarded context contains no system-role
message — the seed and all older messages are excluded. -/
theorem chat_forwards_last_ten (ops : List Op) (s : ConversationState)
    (hrun : run ops none = some s)
    (n1 n2 n3 : Nat) (message sid uid : String)
    (ai : List (Role × String) → String) :
    (chatHandler n1 n2 n3 message sid uid ai (some s)).2.1 =
      ((s.messages ++ [Message.mk Role.user message n2]).drop
        ((s.messages ++ [Message.mk Role.user message n2]).length
            - 10)).map (fun m => (m.role, m.content)) ∧
    (10 < (s.messages ++ [Message.mk Role.user message n2]).length →
      ∀ rc ∈ (chatHandler n1 n2 n3 message sid uid ai (some s)).2.1,
        rc.1 ≠ Role.system) := by
  have hctx : (chatHandler n1 n2 n3 message sid uid ai (some s)).2.1 =
      ((s.messages ++ [Message.mk Role.user message n2]).drop
        ((s.messages ++ [Message.mk Role.user message n2]).length
            - 10)).map (fun m => (m.role, m.content)) := by
    simp [chatHandler, handleInit, handleAddMessage, handleGetHistory,
      sliceLast, AppendRole.toRole]
  refine ⟨hctx, ?_⟩
  intro hlen rc hmem
  rw [hctx] at hmem
  have hinv : RolesInv (run ops none) := rolesInv_run ops none trivial
  rw [hrun] at hinv
  have h' : RolesOK s.messages := hinv
  cases hm : s.messages with
  | nil => rw [hm] at h'; exact absurd h' (by simp [RolesOK])
  | cons m0 rest =>
    rw [hm] at h' hmem hlen
    obtain ⟨h1, h2⟩ := h'
    rw [List.cons_append] at hmem hlen
    obtain ⟨k, hk⟩ : ∃ k,
        (m0 :: (rest ++ [Message.mk Role.user message n2])).length
            - 10 = k + 1 := by
      simp only [List.length_cons, List.length_append, List.length_nil,
        List.length_singleton] at hlen ⊢
      exact ⟨rest.length + 1 + 1 - 10 - 1, by omega⟩
    rw [hk, List.drop_succ_cons] at hmem
    obtain ⟨m, hmmem, hrc⟩ := List.mem_map.mp hmem
    have hmmem2 : m ∈ rest ++ [Message.mk Role.user message n2] :=
      List.mem_of_mem_drop hmmem
    rcases List.mem_append.mp hmmem2 with hl | hr
    · rcases h2 m hl with hu | hu <;> (rw [← hrc]; simp [hu])
    · have hv : m = Message.mk Role.user message n2 := by simpa using hr
      subst hv
      rw [← hrc]
      simp

/-- Witness for C10: an eleven-message conversation; the forwarded
context is the last ten messages and contains no system message. -/
theorem chat_forwards_last_ten_witness :
    (chatHandler 10 10 11 "q" "s" "u" c10Ai (some c10Final)).2.1 =
      ((c10Final.messages ++ [Message.mk Role.user "q" 10]).drop 1).map
        (fun m => (m.role, m.content)) ∧
    ∀ rc ∈ (chatHandler 10 10 11 "q" "s" "u" c10Ai (some c10Final)).2.1,
      rc.1 ≠ Role.system := by
  have h := chat_forwards_last_ten c10Trace c10Final rfl 10 10 11 "q" "s" "u"
    c10Ai
  exact ⟨by simpa [c10Final] using h.1, h.2 (by decide)⟩

end JobAssistant
